import Mathlib

/-!
Verification of the drawing application's core against its specification.

The object store and geometry come from `src/js/components/Canvas.js`
(`ObjectManager`), the history engine from `src/js/core/StateManager.js`
(`StateManager`), and the handle-driven resize from the selection tool
(`SelectionTool.resizeSelectedObject` / `applyNewBounds`).

Numbers are modelled as rationals (`ℚ`); JavaScript comparisons of the form
`Math.sqrt(d) <= t` are embedded as the equivalent `0 ≤ t ∧ d ≤ t * t`
(for `d ≥ 0`, over the reals, `Real.sqrt d ≤ t ↔ 0 ≤ t ∧ d ≤ t * t`),
so every definition stays executable.  JavaScript's `x || 2` applied to a
numeric property is modelled by mapping an absent (`none`) or zero value
to `2`.  The history cursor is an `Int`, exactly as `currentIndex` in the
source can be `-1`.
-/

/-- A 2-D point `{x, y}` as stored in `path` / `points` arrays. -/
@[ext] structure Pt where
  x : ℚ
  y : ℚ
deriving DecidableEq

/-- The `type` tag of a drawable object. -/
inductive ShapeType where
  | rectangle
  | circle
  | line
  | arrow
  | freehand
deriving DecidableEq

/-- A drawable object of `ObjectManager` (`Canvas.js`, `addObject`).  Render-only
fields (colors, opacity, lineCap, rotation, timestamp) are carried by no claim
and are omitted; `strokeWidth` is the one member of `properties` the hit-test
reads.  `radius`, `path` and `points` are `null`-able in the source, hence
`Option`. -/
@[ext] structure DrawObj where
  id : String
  type : ShapeType
  x : ℚ
  y : ℚ
  width : ℚ
  height : ℚ
  radius : Option ℚ
  path : Option (List Pt)
  points : Option (List Pt)
  strokeWidth : Option ℚ
  visible : Bool
deriving DecidableEq

/-- `obj.properties.strokeWidth || 2`: JavaScript's `||` falls back to `2`
when the stroke width is absent or `0` (falsy). -/
def effStroke (o : DrawObj) : ℚ :=
  match o.strokeWidth with
  | some w => if w = 0 then 2 else w
  | none => 2

/-- `ObjectManager.isPointNearLine` (`Canvas.js` lines 666-695).  The source
computes the projection parameter `param = dot / lenSq`, clamps the projection
to the segment, and compares `Math.sqrt(dx*dx + dy*dy) <= tolerance`; the
square-root comparison is embedded squared (see the file comment).  The
source's default `tolerance = 5` is never used by callers, which always pass
`strokeWidth || 2`. -/
def isPointNearLine (x y : ℚ) (start e : Pt) (tolerance : ℚ) : Bool :=
  let A := x - start.x
  let B := y - start.y
  let C := e.x - start.x
  let D := e.y - start.y
  let dot := A * C + B * D
  let lenSq := C * C + D * D
  if lenSq = 0 then
    decide (0 ≤ tolerance ∧ A * A + B * B ≤ tolerance * tolerance)
  else
    let param := dot / lenSq
    let xx := if param < 0 then start.x else if 1 < param then e.x else start.x + param * C
    let yy := if param < 0 then start.y else if 1 < param then e.y else start.y + param * D
    decide (0 ≤ tolerance ∧ (x - xx) * (x - xx) + (y - yy) * (y - yy) ≤ tolerance * tolerance)

/-- `ObjectManager.isPointNearPath`: the per-segment test over consecutive
path point pairs (`for i in 0 .. path.length-2`). -/
def isPointNearPath (x y : ℚ) (path : List Pt) (tolerance : ℚ) : Bool :=
  match path with
  | p :: q :: rest => isPointNearLine x y p q tolerance || isPointNearPath x y (q :: rest) tolerance
  | _ => false

/-- `ObjectManager.isPointInObject` (`Canvas.js` lines 631-655).  For circles
the source compares `distance <= obj.radius` where a `null` radius coerces to
`0`; for lines/arrows it requires at least two points and passes
`strokeWidth || 2` as the tolerance; for freehand it requires a non-empty
path.  Unknown types return `false` (the `default` branch); the `ShapeType`
enum is closed so that branch is the five-way match below. -/
def isPointInObject (x y : ℚ) (o : DrawObj) : Bool :=
  match o.type with
  | .rectangle =>
      decide (o.x ≤ x ∧ x ≤ o.x + o.width ∧ o.y ≤ y ∧ y ≤ o.y + o.height)
  | .circle =>
      let r := o.radius.getD 0
      decide (0 ≤ r ∧ (x - o.x) * (x - o.x) + (y - o.y) * (y - o.y) ≤ r * r)
  | .line | .arrow =>
      match o.points with
      | some (p :: q :: _) => isPointNearLine x y p q (effStroke o)
      | _ => false
  | .freehand =>
      match o.path with
      | some (p :: rest) => isPointNearPath x y (p :: rest) (effStroke o)
      | _ => false

/-- `ObjectManager.getObjectAtPosition` (`Canvas.js` lines 611-622): iterate
from the last-inserted object down, skip invisible objects, return the first
hit; `null` when none.  The downward loop is the first match on the reversed
insertion order. -/
def getObjectAtPosition (objs : List DrawObj) (x y : ℚ) : Option DrawObj :=
  objs.reverse.find? (fun o => o.visible && isPointInObject x y o)

/-- Translate one point by `(dx, dy)` (the `forEach` body in `moveObject`). -/
def translatePt (dx dy : ℚ) (p : Pt) : Pt :=
  ⟨p.x + dx, p.y + dy⟩

/-- The mutation `moveObject` applies to the found object: translate `x, y`
and every entry of `path` and of `points` when present. -/
def translateObj (dx dy : ℚ) (o : DrawObj) : DrawObj :=
  { o with
    x := o.x + dx
    y := o.y + dy
    path := o.path.map (List.map (translatePt dx dy))
    points := o.points.map (List.map (translatePt dx dy)) }

/-- `getObject` finds the first object with the given id and the mutators
update it in place; on a missing id they are silent no-ops.  This helper is
that find-and-update step shared by `moveObject` and `resizeObject`. -/
def updateFirstById (objs : List DrawObj) (objectId : String) (f : DrawObj → DrawObj) :
    List DrawObj :=
  match objs with
  | [] => []
  | o :: rest => if o.id = objectId then f o :: rest else o :: updateFirstById rest objectId f

/-- `ObjectManager.moveObject` (`Canvas.js` lines 549-574). -/
def moveObject (objs : List DrawObj) (objectId : String) (deltaX deltaY : ℚ) : List DrawObj :=
  updateFirstById objs objectId (translateObj deltaX deltaY)

/-- The mutation `resizeObject` applies: scale `width, height` about the
object's center, and scale a truthy `radius` by `max scaleX scaleY`
(`if (object.radius)` skips `null` and `0`). -/
def resizeTransform (scaleX scaleY : ℚ) (o : DrawObj) : DrawObj :=
  let centerX := o.x + o.width / 2
  let centerY := o.y + o.height / 2
  let w := o.width * scaleX
  let h := o.height * scaleY
  { o with
    width := w
    height := h
    x := centerX - w / 2
    y := centerY - h / 2
    radius :=
      match o.radius with
      | some rad => if rad = 0 then some rad else some (rad * max scaleX scaleY)
      | none => none }

/-- `ObjectManager.resizeObject` (`Canvas.js` lines 582-603). -/
def resizeObject (objs : List DrawObj) (objectId : String) (scaleX scaleY : ℚ) : List DrawObj :=
  updateFirstById objs objectId (resizeTransform scaleX scaleY)

/-- An axis-aligned bounds record `{x, y, width, height}`. -/
@[ext] structure Bounds where
  x : ℚ
  y : ℚ
  width : ℚ
  height : ℚ
deriving DecidableEq

/-- `Math.min(...)` over a non-empty list given as head and tail. -/
def listMin (a : ℚ) (l : List ℚ) : ℚ := l.foldl min a

/-- `Math.max(...)` over a non-empty list given as head and tail. -/
def listMax (a : ℚ) (l : List ℚ) : ℚ := l.foldl max a

/-- `ObjectManager.getObjectBounds` (`Canvas.js` lines 719-773).  A circle's
`null` radius coerces to `0` in the arithmetic. -/
def getObjectBounds (o : DrawObj) : Bounds :=
  match o.type with
  | .rectangle => ⟨o.x, o.y, o.width, o.height⟩
  | .circle =>
      let r := o.radius.getD 0
      ⟨o.x - r, o.y - r, r * 2, r * 2⟩
  | .line | .arrow =>
      match o.points with
      | some (p :: q :: _) =>
          ⟨min p.x q.x, min p.y q.y, max p.x q.x - min p.x q.x, max p.y q.y - min p.y q.y⟩
      | _ => ⟨o.x, o.y, 0, 0⟩
  | .freehand =>
      match o.path with
      | some (p :: rest) =>
          let minX := listMin p.x (rest.map Pt.x)
          let maxX := listMax p.x (rest.map Pt.x)
          let minY := listMin p.y (rest.map Pt.y)
          let maxY := listMax p.y (rest.map Pt.y)
          ⟨minX, minY, maxX - minX, maxY - minY⟩
      | _ => ⟨o.x, o.y, 0, 0⟩

/-- The 8 resize handles of `SelectionTool` (corners + edge midpoints). -/
inductive Handle where
  | nw | n | ne | e | se | s | sw | w
deriving DecidableEq

/-- The `switch (handle)` of `SelectionTool.resizeSelectedObject`: the new
bounds computed from the original bounds and the pointer position, before the
minimum-size clamp. -/
def newBoundsForHandle (bounds : Bounds) (handle : Handle) (x y : ℚ) : Bounds :=
  match handle with
  | .nw => ⟨x, y, bounds.x + bounds.width - x, bounds.y + bounds.height - y⟩
  | .n  => ⟨bounds.x, y, bounds.width, bounds.y + bounds.height - y⟩
  | .ne => ⟨bounds.x, y, x - bounds.x, bounds.y + bounds.height - y⟩
  | .e  => ⟨bounds.x, bounds.y, x - bounds.x, bounds.height⟩
  | .se => ⟨bounds.x, bounds.y, x - bounds.x, y - bounds.y⟩
  | .s  => ⟨bounds.x, bounds.y, bounds.width, y - bounds.y⟩
  | .sw => ⟨x, bounds.y, bounds.x + bounds.width - x, y - bounds.y⟩
  | .w  => ⟨x, bounds.y, bounds.x + bounds.width - x, bounds.height⟩

/-- `newBounds.width = Math.max(10, newBounds.width)` and the same for the
height: the minimum-size clamp applied after the handle switch. -/
def clampMinSize (b : Bounds) : Bounds :=
  ⟨b.x, b.y, max 10 b.width, max 10 b.height⟩

/-- `SelectionTool.applyNewBounds`: copy the box onto the object, then the
type-specific remap (circle recenters and takes `radius = min(w,h)/2`;
line/arrow rewrites its first two endpoint entries to the box diagonal). -/
def applyNewBounds (o : DrawObj) (nb : Bounds) : DrawObj :=
  let base := { o with x := nb.x, y := nb.y, width := nb.width, height := nb.height }
  match o.type with
  | .circle =>
      { base with
        radius := some (min nb.width nb.height / 2)
        x := nb.x + nb.width / 2
        y := nb.y + nb.height / 2 }
  | .line | .arrow =>
      match o.points with
      | some (_ :: _ :: rest) =>
          { base with points := some (⟨nb.x, nb.y⟩ :: ⟨nb.x + nb.width, nb.y + nb.height⟩ :: rest) }
      | _ => base
  | _ => base

/-- `SelectionTool.resizeSelectedObject` (selection tool lines 219-270):
bounds from the store, the handle switch, the 10×10 clamp, then
`applyNewBounds`. -/
def resizeSelectedObject (o : DrawObj) (handle : Handle) (x y : ℚ) : DrawObj :=
  applyNewBounds o (clampMinSize (newBoundsForHandle (getObjectBounds o) handle x y))

/-- Clamping of a rational to `[0, 1]`, used by the mathematical
segment-distance below. -/
def clamp01 (t : ℚ) : ℚ := min 1 (max 0 t)

/-- Squared Euclidean distance from `(x, y)` to the segment `[p, q]`: the
perpendicular distance clamped to the segment, not the infinite line.  This
is the specification-side definition the hit-test is compared against; for a
degenerate segment (`p = q`) the rational division yields `0`, the clamp
yields `0`, and the value is the squared distance to the single point. -/
def distToSegSq (x y : ℚ) (p q : Pt) : ℚ :=
  let C := q.x - p.x
  let D := q.y - p.y
  let t := clamp01 (((x - p.x) * C + (y - p.y) * D) / (C * C + D * D))
  (x - (p.x + t * C)) * (x - (p.x + t * C)) + (y - (p.y + t * D)) * (y - (p.y + t * D))

/-!
## History engine (`src/js/core/StateManager.js`)

`cloneState` deep-copies snapshots so that the caller never receives the
stored reference; in this value-level embedding a deep copy is the value
itself, so `cloneState` is the identity and the snapshot type is a
parameter.
-/

/-- The state of `StateManager`: `states`, `currentIndex` (an `Int`, `-1`
when empty) and the bound `maxStates` (50 in the constructor). -/
structure HistoryState (α : Type) where
  states : List α
  currentIndex : ℤ
  maxStates : ℕ
deriving DecidableEq

/-- JavaScript `list.slice(0, e)`: a negative end index counts from the end
of the array, clamped at `0`. -/
def jsSliceUpTo {α : Type} (l : List α) (e : ℤ) : List α :=
  if 0 ≤ e then l.take e.toNat else l.take ((l.length : ℤ) + e).toNat

/-- JavaScript `list[i]` for an integer index: `undefined` (here `none`)
when out of range. -/
def jsIndex {α : Type} (l : List α) (i : ℤ) : Option α :=
  if 0 ≤ i then l.get? i.toNat else none

/-- `StateManager.canUndo`: `currentIndex > 0`. -/
def canUndo {α : Type} (s : HistoryState α) : Bool :=
  decide (0 < s.currentIndex)

/-- `StateManager.canRedo`: `currentIndex < states.length - 1`. -/
def canRedo {α : Type} (s : HistoryState α) : Bool :=
  decide (s.currentIndex < (s.states.length : ℤ) - 1)

/-- `StateManager.saveState` (lines 35-53): truncate after the cursor,
append the (cloned) snapshot, advance the cursor; when the length now
exceeds `maxStates`, `shift()` the oldest entry out and decrement the
cursor. -/
def saveState {α : Type} (s : HistoryState α) (snapshot : α) : HistoryState α :=
  let truncated := jsSliceUpTo s.states (s.currentIndex + 1)
  let pushed := truncated ++ [snapshot]
  let i := s.currentIndex + 1
  if s.maxStates < pushed.length then
    ⟨pushed.drop 1, i - 1, s.maxStates⟩
  else
    ⟨pushed, i, s.maxStates⟩

/-- `StateManager.undo` (lines 59-73): `null` and no state change unless
`canUndo`; else decrement the cursor and return the (cloned) entry at the
new cursor.  The pair is (returned value, state afterwards). -/
def undo {α : Type} (s : HistoryState α) : Option α × HistoryState α :=
  if canUndo s then
    (jsIndex s.states (s.currentIndex - 1), ⟨s.states, s.currentIndex - 1, s.maxStates⟩)
  else
    (none, s)

/-- `StateManager.redo` (lines 79-93): the symmetric operation. -/
def redo {α : Type} (s : HistoryState α) : Option α × HistoryState α :=
  if canRedo s then
    (jsIndex s.states (s.currentIndex + 1), ⟨s.states, s.currentIndex + 1, s.maxStates⟩)
  else
    (none, s)

/-- The reachable-state invariant of the history (`-1 ≤ cursor ≤ len-1`). -/
def histInv {α : Type} (s : HistoryState α) : Prop :=
  -1 ≤ s.currentIndex ∧ s.currentIndex ≤ (s.states.length : ℤ) - 1

/-!
## Object-collection import (`ObjectManager.importObjects`, lines 798-808)

The source is dynamically typed: `JSON.parse` may yield any value, and the
method assigns `this.objects = objects` and `this.selectedObject = null`
*before* computing `nextId`, inside one `try` whose `catch` only logs.  The
parse result is therefore modelled as an arbitrary JSON-ish value `JVal`,
the parse itself as an `Except` input (`.error` = `JSON.parse` threw), and
the `ObjectManager` fields touched by the method as a dynamically typed
state `JSObjState`.  `NaN` (from `parseInt` on a malformed id) is the
`none` of `Option ℤ`.
-/

/-- A parsed JSON value, as far as `importObjects` can distinguish one: an
array, an object carrying a string `id`, an object without a usable `id`,
or any other primitive. -/
inductive JVal where
  | jarr : List JVal → JVal
  | jobjId : String → JVal
  | jobjNoId : JVal
  | jprim : JVal

/-- A model of `parseInt` on the id suffix: the leading decimal digits of
the string, `none` for `NaN`. -/
def parseIntJs (s : String) : Option ℤ :=
  ((s.takeWhile Char.isDigit).toNat?).map Int.ofNat

/-- `parseInt(obj.id.split('_')[1])` for a string id. -/
def jsIdSuffix (s : String) : Option ℤ :=
  match s.splitOn "_" with
  | _ :: part :: _ => parseIntJs part
  | _ => none

/-- `parseInt(obj.id.split('_')[1])` for one element of the imported array:
accessing `.id.split` throws (`.error`) unless the element is an object
with a string id. -/
def idSuffix : JVal → Except Unit (Option ℤ)
  | .jobjId s => .ok (jsIdSuffix s)
  | _ => .error ()

/-- `Math.max(...suffixes, 0) + 1` over JavaScript numbers: any `NaN`
(`none`) makes the maximum `NaN`, and `NaN + 1` is `NaN`. -/
def jsMaxPlus1 (l : List (Option ℤ)) : Option ℤ :=
  if l.all Option.isSome then some (l.foldl (fun m s => max m (s.getD 0)) 0 + 1) else none

/-- `Math.max(...objects.map(obj => parseInt(obj.id.split('_')[1])), 0) + 1`:
`.map` throws unless the value is an array, then each element's id access
may throw. -/
def computeNextId : JVal → Except Unit (Option ℤ)
  | .jarr l => (l.mapM idSuffix).map jsMaxPlus1
  | _ => .error ()

/-- The fields of `ObjectManager` that `importObjects` touches, with the
dynamic type the source really gives them (`objects` can be assigned any
parsed value). -/
structure JSObjState where
  objects : JVal
  selectedObject : Option String
  nextId : Option ℤ

/-- `ObjectManager.importObjects`: on a parse error the `catch` only logs
and nothing was assigned; on a parsed value the two assignments happen
unconditionally, and the `nextId` computation either completes or throws
into the same silent `catch`.  The method returns nothing, so the caller
receives only the mutated state: there is no error channel. -/
def importObjects (st : JSObjState) (parsed : Except Unit JVal) : JSObjState :=
  match parsed with
  | .error _ => st
  | .ok v =>
      match computeNextId v with
      | .ok n => ⟨v, none, n⟩
      | .error _ => ⟨v, none, st.nextId⟩

/-!
## Concrete instances and specification-side definitions used by the theorems
-/

/-- A line object with stroke width 2 and endpoints `(0,0)`–`(10,0)`. -/
def c2line : DrawObj :=
  ⟨"obj_1", .line, 0, 0, 0, 0, none, none, some [⟨0, 0⟩, ⟨10, 0⟩], some 2, true⟩

/-- A 100×50 rectangle at the origin. -/
def c3rect : DrawObj := ⟨"obj_1", .rectangle, 0, 0, 100, 50, none, none, none, some 2, true⟩

/-- The selected box of the specification's resize example: bounds
`(10, 10, 100, 100)`. -/
def c9box : DrawObj := ⟨"obj_1", .rectangle, 10, 10, 100, 100, none, none, none, some 2, true⟩

/-- The specification's statement that a corner-handle resize keeps the two
edges not touching the dragged corner fixed (the resize anchors on the
opposite corner); edge handles are not covered by that sentence, hence
`True`. -/
def anchorOppositeFixed (handle : Handle) (oldB newB : Bounds) : Prop :=
  match handle with
  | .nw => newB.x + newB.width = oldB.x + oldB.width ∧ newB.y + newB.height = oldB.y + oldB.height
  | .ne => newB.x = oldB.x ∧ newB.y + newB.height = oldB.y + oldB.height
  | .se => newB.x = oldB.x ∧ newB.y = oldB.y
  | .sw => newB.x + newB.width = oldB.x + oldB.width ∧ newB.y = oldB.y
  | _ => True

/-- An empty history (the constructor state: no entries, cursor `-1`,
bound 50). -/
def hist0 : HistoryState ℕ := ⟨[], -1, 50⟩

/-- The history after pushing snapshots 10, 20, 30 onto the empty history. -/
def histABC : HistoryState ℕ := saveState (saveState (saveState hist0 10) 20) 30

/-- `histABC` after two `undo()` calls. -/
def histAfterUndos : HistoryState ℕ := (undo (undo histABC).2).2

/-- `histAfterUndos` after pushing snapshot 40. -/
def histAfterD : HistoryState ℕ := saveState histAfterUndos 40

/-- A three-entry history with the cursor in the middle. -/
def histW : HistoryState ℕ := ⟨[5, 6, 7], 1, 50⟩

/-- An `ObjectManager` holding one well-formed object, with it selected. -/
def c4state : JSObjState := ⟨.jarr [.jobjId "obj_1"], some "obj_1", some 2⟩

/-!
## Helper lemmas
-/

/-- Undoing a point translation restores the point. -/
theorem translatePt_inv (dx dy : ℚ) (p : Pt) :
    translatePt (-dx) (-dy) (translatePt dx dy p) = p := by
  simp [translatePt]

/-- Undoing the translation of an optional point list restores it. -/
theorem option_map_translate_inv (dx dy : ℚ) (op : Option (List Pt)) :
    Option.map (List.map (translatePt (-dx) (-dy)))
      (Option.map (List.map (translatePt dx dy)) op) = op := by
  cases op <;> simp [List.map_map, Function.comp_def, translatePt_inv, List.map_id']

/-- Undoing an object translation restores the object, each path/points
entry included. -/
theorem translateObj_inv (dx dy : ℚ) (o : DrawObj) :
    translateObj (-dx) (-dy) (translateObj dx dy o) = o := by
  unfold translateObj
  apply DrawObj.ext <;> first
  | exact option_map_translate_inv dx dy _
  | simp

/-- `List.find?` returns a match, and everything before it fails the
predicate. -/
theorem find?_first {α : Type} (pr : α → Bool) :
    ∀ (l : List α) (a : α), l.find? pr = some a →
      pr a = true ∧ ∃ l1 l2, l = l1 ++ a :: l2 ∧ ∀ b ∈ l1, pr b = false := by
  intro l
  induction l with
  | nil => intro a h; simp [List.find?] at h
  | cons z zs ih =>
    intro a h
    by_cases hz : pr z = true
    · rw [List.find?_cons_of_pos _ hz] at h
      obtain rfl : z = a := by injection h
      exact ⟨hz, [], zs, rfl, by intro b hb; cases hb⟩
    · rw [List.find?_cons_of_neg _ hz] at h
      obtain ⟨hpa, l1, l2, rfl, hall⟩ := ih a h
      refine ⟨hpa, z :: l1, l2, rfl, ?_⟩
      intro b hb
      rcases List.mem_cons.mp hb with rfl | hb'
      · simpa using hz
      · exact hall b hb'

/-- A sum of two rational squares is zero only when both factors are. -/
theorem sum_sq_zero {a b : ℚ} (h : a * a + b * b = 0) : a = 0 ∧ b = 0 := by
  constructor
  · have h1 := mul_self_nonneg a
    have h2 := mul_self_nonneg b
    have ha : a * a = 0 := by linarith
    exact mul_self_eq_zero.mp ha
  · have h1 := mul_self_nonneg a
    have h2 := mul_self_nonneg b
    have hb : b * b = 0 := by linarith
    exact mul_self_eq_zero.mp hb

/-- Clamping a negative parameter yields the segment start. -/
theorem clamp01_of_neg {s : ℚ} (h : s < 0) : clamp01 s = 0 := by
  unfold clamp01
  rw [max_eq_left h.le, min_eq_right]
  norm_num

/-- Clamping a parameter beyond the segment end yields the end. -/
theorem clamp01_of_gt {s : ℚ} (h : 1 < s) : clamp01 s = 1 := by
  unfold clamp01
  rw [max_eq_right (by linarith : (0:ℚ) ≤ s), min_eq_left h.le]

/-- Clamping a parameter within the segment is the identity. -/
theorem clamp01_of_mem {s : ℚ} (h0 : ¬ s < 0) (h1 : ¬ 1 < s) : clamp01 s = s := by
  unfold clamp01
  rw [max_eq_right (not_lt.mp h0), min_eq_right (not_lt.mp h1)]

/-- The source's branching `isPointNearLine` computes exactly the clamped
squared segment distance compared against the (nonnegative) tolerance: the
early-return branch for a zero squared length and the three projection
branches all agree with `distToSegSq`. -/
theorem isPointNearLine_iff (x y : ℚ) (p q : Pt) (tol : ℚ) :
    isPointNearLine x y p q tol = true ↔ 0 ≤ tol ∧ distToSegSq x y p q ≤ tol * tol := by
  simp only [isPointNearLine, distToSegSq]
  by_cases hlen : (q.x - p.x) * (q.x - p.x) + (q.y - p.y) * (q.y - p.y) = 0
  · obtain ⟨hC0, hD0⟩ := sum_sq_zero hlen
    rw [if_pos hlen, decide_eq_true_iff, hC0, hD0]
    norm_num [clamp01]
  · rw [if_neg hlen]
    by_cases h1 : ((x - p.x) * (q.x - p.x) + (y - p.y) * (q.y - p.y)) /
        ((q.x - p.x) * (q.x - p.x) + (q.y - p.y) * (q.y - p.y)) < 0
    · rw [if_pos h1, if_pos h1, decide_eq_true_iff, clamp01_of_neg h1]
      norm_num
    · by_cases h2 : 1 < ((x - p.x) * (q.x - p.x) + (y - p.y) * (q.y - p.y)) /
          ((q.x - p.x) * (q.x - p.x) + (q.y - p.y) * (q.y - p.y))
      · rw [if_neg h1, if_neg h1, if_pos h2, if_pos h2, decide_eq_true_iff, clamp01_of_gt h2]
        constructor
        · rintro ⟨ht, hd⟩
          refine ⟨ht, ?_⟩
          calc (x - (p.x + 1 * (q.x - p.x))) * (x - (p.x + 1 * (q.x - p.x))) +
              (y - (p.y + 1 * (q.y - p.y))) * (y - (p.y + 1 * (q.y - p.y)))
              = (x - q.x) * (x - q.x) + (y - q.y) * (y - q.y) := by ring
            _ ≤ tol * tol := hd
        · rintro ⟨ht, hd⟩
          refine ⟨ht, ?_⟩
          calc (x - q.x) * (x - q.x) + (y - q.y) * (y - q.y)
              = (x - (p.x + 1 * (q.x - p.x))) * (x - (p.x + 1 * (q.x - p.x))) +
                (y - (p.y + 1 * (q.y - p.y))) * (y - (p.y + 1 * (q.y - p.y))) := by ring
            _ ≤ tol * tol := hd
      · rw [if_neg h1, if_neg h1, if_neg h2, if_neg h2, decide_eq_true_iff,
          clamp01_of_mem h1 h2]

/-- `applyNewBounds` always copies the box width onto the object. -/
theorem applyNewBounds_width (o : DrawObj) (nb : Bounds) :
    (applyNewBounds o nb).width = nb.width := by
  obtain ⟨i, ty, ox, oy, ow, oh, r, pa, po, sw, vis⟩ := o
  cases ty <;> try rfl
  all_goals (cases po <;> try rfl)
  all_goals (rename_i l; cases l <;> try rfl)
  all_goals (rename_i p t; cases t <;> rfl)

/-- `applyNewBounds` always copies the box height onto the object. -/
theorem applyNewBounds_height (o : DrawObj) (nb : Bounds) :
    (applyNewBounds o nb).height = nb.height := by
  obtain ⟨i, ty, ox, oy, ow, oh, r, pa, po, sw, vis⟩ := o
  cases ty <;> try rfl
  all_goals (cases po <;> try rfl)
  all_goals (rename_i l; cases l <;> try rfl)
  all_goals (rename_i p t; cases t <;> rfl)

/-!
## The claims
-/

/-- Claim C1: starting from an empty history, pushing snapshots A, B, C
leaves the cursor at 2; two `undo()` calls move it to 0; pushing D then
discards every entry after the cursor before appending, leaving exactly
[A, D] with cursor 1; and a subsequent `redo()` returns absent with the
state unchanged. -/
theorem push_after_undo_prunes_redo :
    histABC.states = [10, 20, 30] ∧ histABC.currentIndex = 2 ∧
    histAfterUndos.currentIndex = 0 ∧
    histAfterD.states = [10, 40] ∧ histAfterD.currentIndex = 1 ∧
    (redo histAfterD).1 = none ∧ (redo histAfterD).2 = histAfterD := by
  decide

/-- Claim C2 (counterexample): the point (5, 4) lies at squared distance 16
from the segment (0,0)–(10,0), i.e. at distance 4, which is within
`max(strokeWidth, tolerance) = max(2, 5) = 5` (the claimed threshold, with
`tolerance` the signature default 5 of `isPointNearLine`), yet the
containment test used by the hit-test rejects the point: the code passes
`strokeWidth || 2`, not `max(strokeWidth, tolerance)`, as the tolerance. -/
theorem line_hit_threshold_counterexample :
    distToSegSq 5 4 ⟨0, 0⟩ ⟨10, 0⟩ = 16 ∧
    ((16 : ℚ) ≤ max 2 5 * max 2 5) ∧
    isPointInObject 5 4 c2line = false := by
  refine ⟨?_, by norm_num, ?_⟩
  · norm_num [distToSegSq, clamp01]
  · norm_num [isPointInObject, c2line, effStroke, isPointNearLine]

/-- Claim C2 (amended): for a line or arrow object with at least two points,
the containment test used by the hit-test succeeds exactly when the squared
distance from the query point to the object's 2-point segment (perpendicular
distance clamped to the segment) is at most the square of the effective
stroke width — `strokeWidth`, or 2 when it is absent or zero — and a point
whose distance equals the tolerance exactly is classified near (inclusive
boundary). -/
theorem isPointInObject_line_threshold :
    (∀ (x y : ℚ) (o : DrawObj) (p q : Pt) (rest : List Pt),
        (o.type = ShapeType.line ∨ o.type = ShapeType.arrow) →
        o.points = some (p :: q :: rest) →
        (isPointInObject x y o = true ↔
          0 ≤ effStroke o ∧ distToSegSq x y p q ≤ effStroke o * effStroke o)) ∧
    (∀ (x y tol : ℚ) (p q : Pt), 0 ≤ tol → distToSegSq x y p q = tol * tol →
        isPointNearLine x y p q tol = true) := by
  constructor
  · intro x y o p q rest htype hpts
    have hred : isPointInObject x y o = isPointNearLine x y p q (effStroke o) := by
      rcases htype with ht | ht <;> simp [isPointInObject, ht, hpts]
    rw [hred, isPointNearLine_iff]
  · intro x y tol p q h0 heq
    rw [isPointNearLine_iff]
    exact ⟨h0, le_of_eq heq⟩

/-- Claim C3 (counterexample): the Shape Object Store's
`resize(id, scaleX, scaleY)` applies no floor at all: resizing a 100-wide
rectangle with `scaleX = -1` leaves width −100, which is negative. -/
theorem resizeObject_negative_width_counterexample :
    (resizeObject [c3rect] "obj_1" (-1) 1).map DrawObj.width = [-100] ∧
    ¬ (0 : ℚ) ≤ -100 := by
  constructor
  · norm_num [resizeObject, updateFirstById, resizeTransform, c3rect]
  · norm_num

/-- Claim C3 (amended): the Selection Controller's handle-driven resize does
enforce the 10-unit minimum-size floor — after it, width and height are at
least 10, hence nonnegative, for every object, handle and pointer position;
the store's `resize(id, scaleX, scaleY)` enforces no floor. -/
theorem resizeSelectedObject_min_floor (o : DrawObj) (handle : Handle) (x y : ℚ) :
    10 ≤ (resizeSelectedObject o handle x y).width ∧
    10 ≤ (resizeSelectedObject o handle x y).height := by
  unfold resizeSelectedObject
  rw [applyNewBounds_width, applyNewBounds_height]
  unfold clampMinSize
  exact ⟨le_max_left _ _, le_max_left _ _⟩

/-- Claim C4 (counterexample): importing the well-formed JSON text `"{}"`
(a parsed object without a usable id, not an array) overwrites the object
collection with that non-collection value and clears the selection before
the shape failure is hit; the failure is swallowed by the `catch`, and
`importObjects` returns only the mutated state — so the import is neither
all-or-nothing nor reported to the caller. -/
theorem importObjects_mutates_on_bad_shape :
    (importObjects c4state (Except.ok JVal.jobjNoId)).objects = JVal.jobjNoId ∧
    (importObjects c4state (Except.ok JVal.jobjNoId)).objects ≠ c4state.objects ∧
    (importObjects c4state (Except.ok JVal.jobjNoId)).selectedObject = none := by
  refine ⟨rfl, ?_, rfl⟩
  intro h
  exact JVal.noConfusion h

/-- Claim C4 (amended): on invalid JSON (the parse throws) no core state is
mutated, but the failure is only logged, never surfaced to the caller; on
any successfully parsed value — valid object collection or not — the object
set is unconditionally replaced by the parsed value and the selection
cleared, before the shape of the value is ever examined. -/
theorem importObjects_behavior :
    (∀ st : JSObjState, importObjects st (Except.error ()) = st) ∧
    (∀ (st : JSObjState) (v : JVal),
        (importObjects st (Except.ok v)).objects = v ∧
        (importObjects st (Except.ok v)).selectedObject = none) := by
  constructor
  · intro st
    rfl
  · intro st v
    unfold importObjects
    cases hc : computeNextId v <;> simp [hc]

/-- Claim C5: when a push arrives with the history full (`length =
maxEntries` and the cursor on the last entry), the oldest entry is evicted
and the cursor decremented: afterwards the length is again `maxEntries`, the
entries are the old ones minus the head plus the new snapshot at the end,
and the cursor (the undo distance from the start) is unchanged. -/
theorem saveState_eviction {α : Type} (s : HistoryState α) (snap : α)
    (hm : 0 < s.maxStates)
    (hlen : s.states.length = s.maxStates)
    (hcur : s.currentIndex = (s.maxStates : ℤ) - 1) :
    (saveState s snap).states.length = s.maxStates ∧
    (saveState s snap).states = s.states.drop 1 ++ [snap] ∧
    (saveState s snap).currentIndex = s.currentIndex := by
  have h0 : (0:ℤ) ≤ s.currentIndex + 1 := by omega
  have htn : (s.currentIndex + 1).toNat = s.maxStates := by omega
  have htake : s.states.take s.maxStates = s.states :=
    List.take_of_length_le (by omega)
  have hcond : s.maxStates < (s.states ++ [snap]).length := by
    simp [hlen]
  simp only [saveState, jsSliceUpTo]
  rw [if_pos h0, htn, htake, if_pos hcond]
  refine ⟨?_, ?_, ?_⟩
  · simp [hlen]
  · exact List.drop_append_of_le_length (by omega)
  · simp

/-- Claim C5 (witness): a 2-entry history at its bound, pushed once more. -/
theorem saveState_eviction_witness :
    (saveState (⟨[1, 2], 1, 2⟩ : HistoryState ℕ) 7).states.length = 2 ∧
    (saveState (⟨[1, 2], 1, 2⟩ : HistoryState ℕ) 7).states = ([1, 2] : List ℕ).drop 1 ++ [7] ∧
    (saveState (⟨[1, 2], 1, 2⟩ : HistoryState ℕ) 7).currentIndex = 1 :=
  saveState_eviction ⟨[1, 2], 1, 2⟩ 7 (by decide) (by decide) (by decide)

/-- Claim C6: on a reachable history state, `undo()` is a no-op returning
absent, with entries and cursor unchanged, exactly when the cursor is at or
below 0; otherwise it decrements the cursor and returns the entry at the new
cursor (as a value — the source deep-copies it).  Symmetrically `redo()` is
a no-op returning absent exactly when the cursor is at or beyond
`length - 1`, otherwise incrementing the cursor and returning the entry at
the new cursor.  Neither operation can fail. -/
theorem undo_redo_boundary {α : Type} (s : HistoryState α) (hinv : histInv s) :
    ((undo s).1 = none ∧ (undo s).2 = s ↔ s.currentIndex ≤ 0) ∧
    (0 < s.currentIndex →
      ∃ snap, jsIndex s.states (s.currentIndex - 1) = some snap ∧
        undo s = (some snap, ⟨s.states, s.currentIndex - 1, s.maxStates⟩)) ∧
    ((redo s).1 = none ∧ (redo s).2 = s ↔ (s.states.length : ℤ) - 1 ≤ s.currentIndex) ∧
    (s.currentIndex < (s.states.length : ℤ) - 1 →
      ∃ snap, jsIndex s.states (s.currentIndex + 1) = some snap ∧
        redo s = (some snap, ⟨s.states, s.currentIndex + 1, s.maxStates⟩)) := by
  obtain ⟨hlo, hhi⟩ := hinv
  have hu : ∀ _ : 0 < s.currentIndex,
      ∃ snap, jsIndex s.states (s.currentIndex - 1) = some snap := by
    intro hi
    have h0 : (0:ℤ) ≤ s.currentIndex - 1 := by omega
    have hlt : (s.currentIndex - 1).toNat < s.states.length := by omega
    exact ⟨s.states.get ⟨(s.currentIndex - 1).toNat, hlt⟩,
      by simp [jsIndex, h0, List.get?_eq_get hlt]⟩
  have hr : ∀ _ : s.currentIndex < (s.states.length : ℤ) - 1,
      ∃ snap, jsIndex s.states (s.currentIndex + 1) = some snap := by
    intro hi
    have h0 : (0:ℤ) ≤ s.currentIndex + 1 := by omega
    have hlt : (s.currentIndex + 1).toNat < s.states.length := by omega
    exact ⟨s.states.get ⟨(s.currentIndex + 1).toNat, hlt⟩,
      by simp [jsIndex, h0, List.get?_eq_get hlt]⟩
  refine ⟨?_, ?_, ?_, ?_⟩
  · by_cases hi : 0 < s.currentIndex
    · obtain ⟨snap, hsnap⟩ := hu hi
      have hds : undo s = (some snap, ⟨s.states, s.currentIndex - 1, s.maxStates⟩) := by
        simp [undo, canUndo, hi, hsnap]
      rw [hds]
      constructor
      · rintro ⟨h1, -⟩
        cases h1
      · intro hle
        omega
    · have hds : undo s = (none, s) := by
        simp [undo, canUndo, hi]
      rw [hds]
      simp
      omega
  · intro hi
    obtain ⟨snap, hsnap⟩ := hu hi
    exact ⟨snap, hsnap, by simp [undo, canUndo, hi, hsnap]⟩
  · by_cases hi : s.currentIndex < (s.states.length : ℤ) - 1
    · obtain ⟨snap, hsnap⟩ := hr hi
      have hds : redo s = (some snap, ⟨s.states, s.currentIndex + 1, s.maxStates⟩) := by
        simp [redo, canRedo, hi, hsnap]
      rw [hds]
      constructor
      · rintro ⟨h1, -⟩
        cases h1
      · intro hle
        omega
    · have hds : redo s = (none, s) := by
        simp [redo, canRedo, hi]
      rw [hds]
      simp
      omega
  · intro hi
    obtain ⟨snap, hsnap⟩ := hr hi
    exact ⟨snap, hsnap, by simp [redo, canRedo, hi, hsnap]⟩

/-- Claim C6 (witness): the three-entry history with cursor 1 satisfies the
invariant, and the boundary characterization holds on it. -/
theorem undo_redo_boundary_witness :
    ((undo histW).1 = none ∧ (undo histW).2 = histW ↔ histW.currentIndex ≤ 0) ∧
    (0 < histW.currentIndex →
      ∃ snap, jsIndex histW.states (histW.currentIndex - 1) = some snap ∧
        undo histW = (some snap, ⟨histW.states, histW.currentIndex - 1, histW.maxStates⟩)) ∧
    ((redo histW).1 = none ∧ (redo histW).2 = histW ↔
      (histW.states.length : ℤ) - 1 ≤ histW.currentIndex) ∧
    (histW.currentIndex < (histW.states.length : ℤ) - 1 →
      ∃ snap, jsIndex histW.states (histW.currentIndex + 1) = some snap ∧
        redo histW = (some snap, ⟨histW.states, histW.currentIndex + 1, histW.maxStates⟩)) :=
  undo_redo_boundary histW ⟨by decide, by decide⟩

/-- Claim C7: for every pointer coordinate and every object list, the
hit-test never returns an object whose visible flag is false; a returned
object contains the point and every object inserted after it is invisible
or does not contain the point (topmost wins); and the result is absent
exactly when no visible object contains the point. -/
theorem hitTest_visible_topmost (objs : List DrawObj) (x y : ℚ) :
    (∀ o, getObjectAtPosition objs x y = some o →
        o.visible = true ∧ isPointInObject x y o = true ∧
        ∃ pre post, objs = pre ++ o :: post ∧
          ∀ b ∈ post, (b.visible && isPointInObject x y b) = false) ∧
    (getObjectAtPosition objs x y = none ↔
        ∀ o ∈ objs, (o.visible && isPointInObject x y o) = false) := by
  constructor
  · intro o h
    obtain ⟨hpo, l1, l2, hrev, hall⟩ := find?_first _ _ _ h
    have hvi : o.visible = true ∧ isPointInObject x y o = true := by
      simpa [Bool.and_eq_true] using hpo
    refine ⟨hvi.1, hvi.2, l2.reverse, l1.reverse, ?_, ?_⟩
    · have h2 : objs = (l1 ++ o :: l2).reverse := by
        rw [← hrev, List.reverse_reverse]
      simpa [List.reverse_append] using h2
    · intro b hb
      exact hall b (List.mem_reverse.mp hb)
  · unfold getObjectAtPosition
    rw [List.find?_eq_none]
    constructor
    · intro hnone o ho
      have := hnone o (List.mem_reverse.mpr ho)
      simpa using this
    · intro hall o ho
      have := hall o (List.mem_reverse.mp ho)
      simp [this]

/-- Claim C8: moving an object by `(dx, dy)` and then by `(−dx, −dy)`
restores the whole store exactly — the object's `x`, `y` and, through the
list equality, every entry of its `path` and `points` lists; objects with a
different id and a missing id are untouched by both moves. -/
theorem moveObject_roundTrip (objs : List DrawObj) (objectId : String) (dx dy : ℚ) :
    moveObject (moveObject objs objectId dx dy) objectId (-dx) (-dy) = objs := by
  unfold moveObject
  induction objs with
  | nil => rfl
  | cons o rest ih =>
    by_cases h : o.id = objectId
    · have hid : (translateObj dx dy o).id = objectId := h
      simp only [updateFirstById, if_pos h, if_pos hid, translateObj_inv]
    · simp only [updateFirstById, if_neg h, ih]

/-- Claim C9 (counterexample): dragging the nw handle of the box
(10, 10, 100, 100) to the pointer (105, 105) engages the 10×10 clamp and
moves the right edge — an edge not touching the dragged corner — from 110
to 115, so a corner-handle resize does not always keep the two opposite
edges fixed. -/
theorem corner_resize_clamp_moves_opposite_edge :
    (resizeSelectedObject c9box Handle.nw 105 105).x +
      (resizeSelectedObject c9box Handle.nw 105 105).width = 115 ∧
    c9box.x + c9box.width = 110 ∧ ((115 : ℚ) ≠ 110) := by
  refine ⟨?_, ?_, ?_⟩ <;>
    norm_num [resizeSelectedObject, applyNewBounds, clampMinSize, newBoundsForHandle,
      getObjectBounds, c9box]

/-- Claim C9 (amended): whenever the pre-clamp width and height are at least
10 (the minimum-size floor does not engage), a corner-handle resize of a
rectangle keeps the two edges not touching the dragged corner fixed
(anchoring on the opposite corner); and the specification's example holds:
dragging the se handle of the box (10, 10, 100, 100) to (150, 160) yields
exactly `{x: 10, y: 10, width: 140, height: 150}`. -/
theorem corner_resize_anchors_opposite :
    (∀ (o : DrawObj) (handle : Handle) (px py : ℚ),
        o.type = ShapeType.rectangle →
        10 ≤ (newBoundsForHandle (getObjectBounds o) handle px py).width →
        10 ≤ (newBoundsForHandle (getObjectBounds o) handle px py).height →
        anchorOppositeFixed handle (getObjectBounds o)
          ⟨(resizeSelectedObject o handle px py).x, (resizeSelectedObject o handle px py).y,
           (resizeSelectedObject o handle px py).width,
           (resizeSelectedObject o handle px py).height⟩) ∧
    ((resizeSelectedObject c9box Handle.se 150 160).x = 10 ∧
     (resizeSelectedObject c9box Handle.se 150 160).y = 10 ∧
     (resizeSelectedObject c9box Handle.se 150 160).width = 140 ∧
     (resizeSelectedObject c9box Handle.se 150 160).height = 150) := by
  constructor
  · intro o handle px py htype hw hh
    have hcl : clampMinSize (newBoundsForHandle (getObjectBounds o) handle px py)
        = newBoundsForHandle (getObjectBounds o) handle px py := by
      unfold clampMinSize
      rw [max_eq_right hw, max_eq_right hh]
    have happ : ∀ nb : Bounds, applyNewBounds o nb =
        { o with x := nb.x, y := nb.y, width := nb.width, height := nb.height } := by
      intro nb
      simp [applyNewBounds, htype]
    unfold resizeSelectedObject
    rw [hcl, happ]
    cases handle <;>
      simp [anchorOppositeFixed, newBoundsForHandle, getObjectBounds, htype]
  · refine ⟨?_, ?_, ?_, ?_⟩ <;>
      norm_num [resizeSelectedObject, applyNewBounds, clampMinSize, newBoundsForHandle,
        getObjectBounds, c9box]

/-- Claim C10: for a degenerate segment whose start and end coincide,
`isPointNearLine` takes the zero-length early return instead of dividing by
the zero squared length, and holds exactly when the Euclidean distance from
the query point to that single point is at most the tolerance (stated on
squares: for a nonnegative tolerance, distance ≤ tolerance iff squared
distance ≤ tolerance²; a negative tolerance rejects every point). -/
theorem isPointNearLine_degenerate (x y : ℚ) (p : Pt) (tol : ℚ) :
    isPointNearLine x y p p tol = true ↔
      0 ≤ tol ∧ (x - p.x) * (x - p.x) + (y - p.y) * (y - p.y) ≤ tol * tol := by
  have h0 : (p.x - p.x) * (p.x - p.x) + (p.y - p.y) * (p.y - p.y) = 0 := by ring
  simp only [isPointNearLine]
  rw [if_pos h0, decide_eq_true_iff]
